import Mathlib

/-!
Verification of the wallhaven downloader script (`index.js`).

The script's core is modelled as pure Lean functions:
* the filesystem is a list of existing paths (`List String`);
* one HTTP image download's observable fate is an `Outcome` (which of the
  handler branches of `saveImageToFile` fires);
* `saveImageToFile` threads the filesystem and produces a `Report` of its
  observable effects (requests issued, write handle opened/closed, unlink,
  console messages, per-task result);
* the batch loop of `downloadPage` is `batchSlices` / `batches`, and
  `await Promise.all` sequencing is made observable by the event trace
  `schedTrace` (all of a batch's tasks start together, then all settle,
  before the next batch contributes any event);
* `downloadPage` and the page loop of `main` (`runPages`) return
  `Except String _`: `.error` models an exception / rejected promise that
  nothing in the script catches (fatal to the run).
-/

namespace WallhavenDl

/-- `CONCURRENCY_LIMIT = 8` (the batch size of `downloadPage`). -/
def CONCURRENCY_LIMIT : Nat := 8

/-- One item of the page response's `data` array; only its `path`
(the image URL) is used. -/
structure Item where
  path : String
deriving DecidableEq, Repr, Inhabited

/-- The observable fate of one HTTP image GET, i.e. which handler branch of
`saveImageToFile` fires for it. -/
inductive Outcome where
  /-- status 200 and the writer's `finish` event fires -/
  | ok : Outcome
  /-- `res.statusCode !== 200` -/
  | non200 (statusCode : Nat) : Outcome
  /-- the `setTimeout` fires while the body is being written -/
  | midTimeout : Outcome
  /-- the writer's `error` event fires with message `msg` -/
  | writeError (msg : String) : Outcome
  /-- the request's `error` event fires with message `msg` (no response) -/
  | connError (msg : String) : Outcome
  /-- the request's `timeout` event fires (no response) -/
  | connTimeout : Outcome
deriving DecidableEq, Repr, Inhabited

/-- Per-task result: skipped because the file already exists, downloaded,
or failed with the error message that was logged. -/
inductive TaskResult where
  | skippedExists : TaskResult
  | downloaded : TaskResult
  | failed (msg : String) : TaskResult
deriving DecidableEq, Repr, Inhabited

/-- Observable effects of one `saveImageToFile` call. -/
structure Report where
  /-- number of HTTP GETs issued for the image -/
  requests : Nat
  /-- `fs.createWriteStream(file_path)` was called -/
  opened : Bool
  /-- the write handle was closed (`writer.end()` or the `finish` event) -/
  closed : Bool
  /-- `fs.unlink(file_path, ...)` was called -/
  unlinked : Bool
  result : TaskResult
  /-- console messages, in order -/
  log : List String
deriving DecidableEq, Repr, Inhabited

/-- `file_path.split("/").pop()` -/
def filenameOf (p : String) : String := (p.splitOn "/").getLastD ""

/-- `err.message` of the error passed to `onError` in each failure branch. -/
def errMessage : Outcome → String
  | .ok => ""
  | .non200 c => "Failed to download image: " ++ toString c
  | .midTimeout => "Download timeout"
  | .writeError m => m
  | .connError m => m
  | .connTimeout => "Connection timeout"

/-- The two console messages of a failed download: `onError`'s
`console.error` line and the `Failed to download` line printed when
`img_response` is falsy. -/
def failLogs (file_path : String) (cur : Int) (tot : Nat) (o : Outcome) :
    List String :=
  ["Error downloading " ++ file_path ++ ": " ++ errMessage o,
   "Failed to download " ++ filenameOf file_path ++ " - " ++ toString cur
     ++ "/" ++ toString tot]

/-- `saveImageToFile(image_url, file_path, current_image, total_images)`.

Skip branch: `if (!fs.existsSync(file_path))` is false, nothing but a log
line happens.  Otherwise exactly one GET is issued and the handlers run
according to `o`:
* `.ok` — status 200, writer created, body streamed, `finish` fires;
  the file now exists.
* `.non200` — the writer is never created, `onError` resolves `false`.
* `.midTimeout` / `.writeError` — the writer was created (status 200),
  then the failure branch runs `writer.end()` and `fs.unlink(file_path)`,
  so the freshly created file is removed again.
* `.connError` / `.connTimeout` — the request fails with no response;
  no writer is ever created. -/
def saveImageToFile (fsys : List String) (image_url file_path : String)
    (current_image : Int) (total_images : Nat) (o : Outcome) :
    List String × Report :=
  if file_path ∈ fsys then
    (fsys,
      { requests := 0, opened := false, closed := false, unlinked := false,
        result := .skippedExists,
        log := [filenameOf file_path ++ " already exists - "
          ++ toString current_image ++ "/" ++ toString total_images] })
  else
    match o with
    | .ok =>
        (file_path :: fsys,
          { requests := 1, opened := true, closed := true, unlinked := false,
            result := .downloaded, log := [] })
    | .non200 c =>
        (fsys,
          { requests := 1, opened := false, closed := false, unlinked := false,
            result := .failed (errMessage (.non200 c)),
            log := failLogs file_path current_image total_images (.non200 c) })
    | .midTimeout =>
        ((file_path :: fsys).erase file_path,
          { requests := 1, opened := true, closed := true, unlinked := true,
            result := .failed (errMessage .midTimeout),
            log := failLogs file_path current_image total_images .midTimeout })
    | .writeError m =>
        ((file_path :: fsys).erase file_path,
          { requests := 1, opened := true, closed := true, unlinked := true,
            result := .failed (errMessage (.writeError m)),
            log := failLogs file_path current_image total_images
              (.writeError m) })
    | .connError m =>
        (fsys,
          { requests := 1, opened := false, closed := false, unlinked := false,
            result := .failed (errMessage (.connError m)),
            log := failLogs file_path current_image total_images
              (.connError m) })
    | .connTimeout =>
        (fsys,
          { requests := 1, opened := false, closed := false, unlinked := false,
            result := .failed (errMessage .connTimeout),
            log := failLogs file_path current_image total_images .connTimeout })

/-- `curImage = (pageId - 1) * 24 + (i + index + 1) - offsetIndex`
(line 345): `i` is the batch's base offset in the page, `index` the
position inside the batch. -/
def curImage (pageId : Int) (i index : Nat) (offsetIndex : Int) : Int :=
  (pageId - 1) * 24 + ((i : Int) + (index : Int) + 1) - offsetIndex

/-- One download task of `downloadPage`: the image URL, the destination
`folderName/filename`, and the human-facing global index `curImage`. -/
structure Task where
  image_url : String
  file_path : String
  cur : Int
deriving DecidableEq, Repr, Inhabited

/-! The batch loop of `downloadPage` (lines 341-352):
`for (let i = 0; i < pageData.length; i += batchSize)` slices
`pageData.slice(i, i + batchSize)` and maps each slice with its base
offset `i`.  `batchSlices L i xs` returns the list of `(i, slice)` pairs;
`batches L xs` is the same list of slices without the base offsets.
With `L = 0` the JS loop would never terminate; the model returns the
whole list as one batch in that (unreachable: the limit is the constant 8)
case, and every theorem assumes `0 < L`. -/

/-- The `(base offset, slice)` pairs produced by the batch loop. -/
def batchSlices {α : Type} : Nat → Nat → List α → List (Nat × List α)
  | _, _, [] => []
  | 0, i, x :: xs => [(i, x :: xs)]
  | L + 1, i, x :: xs =>
      (i, x :: xs.take L) :: batchSlices (L + 1) (i + (L + 1)) (xs.drop L)
termination_by _ _ xs => xs.length
decreasing_by simp only [List.length_drop, List.length_cons]; omega

/-- The contiguous batches of size `L` (last possibly smaller). -/
def batches {α : Type} : Nat → List α → List (List α)
  | _, [] => []
  | 0, x :: xs => [x :: xs]
  | L + 1, x :: xs => (x :: xs.take L) :: batches (L + 1) (xs.drop L)
termination_by _ xs => xs.length
decreasing_by simp only [List.length_drop, List.length_cons]; omega

/-- Start / settle events of one task, used to make the sequencing of
`await Promise.all` observable. -/
inductive Ev (α : Type) where
  | start (t : α) : Ev α
  | settle (t : α) : Ev α
deriving DecidableEq, Repr

/-- The event trace of the batch loop: `batch.map(...)` creates (starts)
every promise of the batch, then `await Promise.all(promises)` blocks the
loop until each of them has settled, so a batch contributes all its start
events, then all its settle events, before the loop body runs again. -/
def schedTrace {α : Type} : List (List α) → List (Ev α)
  | [] => []
  | b :: bs => b.map Ev.start ++ b.map Ev.settle ++ schedTrace bs

/-- Run the tasks of one batch: thread the filesystem through
`saveImageToFile` and collect one `Report` per task.  (The code runs a
batch's tasks concurrently; their destination paths are distinct, so the
effects commute and the model threads them in list order.) -/
def runTasks (total_images : Nat) (fsys : List String) :
    List (Task × Outcome) → List String × List Report
  | [] => (fsys, [])
  | t :: rest =>
      let r := saveImageToFile fsys t.1.image_url t.1.file_path t.1.cur
        total_images t.2
      let s := runTasks total_images r.1 rest
      (s.1, r.2 :: s.2)

/-- Run the batches in order: `await Promise.all` of each batch before the
next one starts. -/
def runBatches (total_images : Nat) (fsys : List String) :
    List (List (Task × Outcome)) → List String × List Report
  | [] => (fsys, [])
  | b :: bs =>
      let r := runTasks total_images fsys b
      let s := runBatches total_images r.1 bs
      (s.1, r.2 ++ s.2)

/-- The body of the page-fetch response, as seen by
`res.on("end", () => resolve(JSON.parse(data)))`. -/
inductive Body where
  /-- `JSON.parse` throws (malformed JSON) -/
  | malformed (raw : String) : Body
  /-- a JSON object whose `data` field is `data` (`none` when absent) -/
  | json (data : Option (List Item)) : Body
deriving DecidableEq, Repr, Inhabited

/-- Whether `JSON.parse` throws on this body. -/
def Body.isMalformed : Body → Bool
  | .malformed _ => true
  | .json _ => false

/-- The message of the exception thrown by `JSON.parse` on malformed
input; nothing in the script catches it, so it is fatal to the run. -/
def jsonParseError : String := "SyntaxError: Unexpected token in JSON"

/-- `downloadPage(pageId, totalCount, folderName, offsetIndex)`
(lines 312-353).  `oracle j` is the fate of the download of the item at
flat offset `j` of the page.  The `.error` result models the uncaught
`JSON.parse` exception; every other path completes normally. -/
def downloadPage (fsys : List String) (pageId : Int) (totalCount : Nat)
    (folderName : String) (offsetIndex : Int) (body : Body)
    (oracle : Nat → Outcome) :
    Except String (List String × List Report) :=
  match body with
  | .malformed _ => .error jsonParseError
  | .json dataField =>
      let pageData := dataField.getD []
      let taskBatches := (batchSlices CONCURRENCY_LIMIT 0 pageData).map
        (fun p => p.2.enum.map (fun q =>
          let imagePath := q.2.path
          let filename := filenameOf imagePath
          (({ image_url := imagePath,
              file_path := folderName ++ "/" ++ filename,
              cur := curImage pageId p.1 q.1 offsetIndex } : Task),
           oracle (p.1 + q.1))))
      .ok (runBatches totalCount fsys taskBatches)

/-- The page loop of `main` (lines 410-421), `n` pages still to go:
`await downloadPage(page_index, total, FOLDER_NAME, start_page * 24)`
with no surrounding try/catch, so an `.error` aborts the loop. -/
def runPagesGo (total : Nat) (offsetIndex : Int) (folderName : String)
    (bodies : Int → Body) (oracle : Int → Nat → Outcome)
    (fsys : List String) (pageId : Int) :
    Nat → Except String (List String × List Report)
  | 0 => .ok (fsys, [])
  | n + 1 =>
      match downloadPage fsys pageId total folderName offsetIndex
        (bodies pageId) (oracle pageId) with
      | .error e => .error e
      | .ok r =>
          match runPagesGo total offsetIndex folderName bodies oracle r.1
            (pageId + 1) n with
          | .error e => .error e
          | .ok s => .ok (s.1, r.2 ++ s.2)

/-- `main`'s download phase: `total_images_to_download = 24 * pages`,
pages `start_page, start_page + 1, ...` each downloaded with
`offsetIndex = start_page * 24`. -/
def runPages (fsys : List String) (start_page : Int)
    (pages_to_download : Nat) (folderName : String) (bodies : Int → Body)
    (oracle : Int → Nat → Outcome) :
    Except String (List String × List Report) :=
  runPagesGo (24 * pages_to_download) (start_page * 24) folderName bodies
    oracle fsys start_page pages_to_download

/-! The progress reporter (the `res.on("data", ...)` handler,
lines 236-259).  `total = parseInt(res.headers["content-length"], 10)` is
`none` when the header is absent or not numeric (JS `NaN`); the percent
printed into the status line is then `NaN`, modelled as `none`.  The
rational-division model is exact for `0 < total`, which the claims
assume. -/

/-- JS `Math.round` on a nonnegative finite value: round half toward
positive infinity. -/
def jsRound (q : ℚ) : ℤ := ⌊q + 1 / 2⌋

/-- `Math.min(Math.round((downloaded / total) * 100), 100)`. -/
def progressOf (downloaded total : Nat) : ℤ :=
  min (jsRound ((downloaded : ℚ) / (total : ℚ) * 100)) 100

/-- One overwritten status line:
`Downloading FILE - PERCENT% (CUR/TOT)`. -/
structure StatusLine where
  filename : String
  /-- `none` models the `NaN` percent printed when content-length is
  unknown -/
  percent : Option ℤ
  current : Int
  total : Nat
deriving DecidableEq, Repr, Inhabited

/-- The status lines emitted by the `data` handler while the chunks
arrive: `downloaded += chunk.length` then one line per chunk. -/
def chunkLines (filename : String) (cur : Int) (tot : Nat)
    (contentLength : Option Nat) (downloaded : Nat) :
    List Nat → List StatusLine
  | [] => []
  | c :: cs =>
      let d := downloaded + c
      { filename := filename, percent := contentLength.map (progressOf d),
        current := cur, total := tot }
        :: chunkLines filename cur tot contentLength d cs

/-! Properties, stated as `Prop`-valued definitions so that the claim
theorems and their witnesses can share them. -/

/-- C2's conclusion for a task list and limit `L`: `downloadPage`'s sliced
batches (with base offsets) project to `batches L tasks`; the batches
partition the task list in order; each batch is nonempty of size at most
`L` and all but the last have size exactly `L`; and in the scheduler's
event trace, the trace splits after batch `n` so that every settle of
batch `n` is in the prefix and every start of a later batch is in the
suffix. -/
def SchedulerPartition (L : Nat) (tasks : List Task) : Prop :=
  ((batchSlices L 0 tasks).map Prod.snd = batches L tasks)
  ∧ (batches L tasks).flatten = tasks
  ∧ (∀ b ∈ batches L tasks, b ≠ [] ∧ b.length ≤ L)
  ∧ (∀ k, k + 1 < (batches L tasks).length →
      ((batches L tasks).getD k []).length = L)
  ∧ (∀ n, n < (batches L tasks).length →
      schedTrace (batches L tasks)
        = schedTrace ((batches L tasks).take (n + 1))
          ++ schedTrace ((batches L tasks).drop (n + 1))
      ∧ (∀ t ∈ (batches L tasks).getD n [],
          Ev.settle t ∈ schedTrace ((batches L tasks).take (n + 1)))
      ∧ (∀ m, n < m → m < (batches L tasks).length →
          ∀ u ∈ (batches L tasks).getD m [],
            Ev.start u ∈ schedTrace ((batches L tasks).drop (n + 1))))

/-- C3, per task: when the destination already exists, the task issues no
request, opens no write handle, leaves the filesystem unchanged and is a
skip, not a failure. -/
def SkipIsNoOp (fsys : List String) (image_url file_path : String)
    (cur : Int) (tot : Nat) (o : Outcome) : Prop :=
  (saveImageToFile fsys image_url file_path cur tot o).1 = fsys
  ∧ (saveImageToFile fsys image_url file_path cur tot o).2.requests = 0
  ∧ (saveImageToFile fsys image_url file_path cur tot o).2.opened = false
  ∧ (saveImageToFile fsys image_url file_path cur tot o).2.unlinked = false
  ∧ (saveImageToFile fsys image_url file_path cur tot o).2.result
      = .skippedExists

/-- C3, per run: task `i` of the second run of the same task list issues
no request (the second run starts from the filesystem the first run
left). -/
def SecondRunNoRequest (tot : Nat) (fs0 : List String)
    (l : List (Task × Outcome)) (i : Nat) : Prop :=
  ((runTasks tot (runTasks tot fs0 l).1 l).2.getD i default).requests = 0

/-- C4's conclusion: the write handle was closed, the destination was
unlinked, and the destination path does not exist once the task settles. -/
def CleanupAfterOpen (fsys : List String) (image_url file_path : String)
    (cur : Int) (tot : Nat) (o : Outcome) : Prop :=
  (saveImageToFile fsys image_url file_path cur tot o).2.closed = true
  ∧ (saveImageToFile fsys image_url file_path cur tot o).2.unlinked = true
  ∧ file_path ∉ (saveImageToFile fsys image_url file_path cur tot o).1

/-- C5, per task: a failing download is converted into a failed result and
both console lines identifying the destination are logged. -/
def FailureConverted (fsys : List String) (image_url file_path : String)
    (cur : Int) (tot : Nat) (o : Outcome) : Prop :=
  (saveImageToFile fsys image_url file_path cur tot o).2.result
      = .failed (errMessage o)
  ∧ ("Error downloading " ++ file_path ++ ": " ++ errMessage o)
      ∈ (saveImageToFile fsys image_url file_path cur tot o).2.log
  ∧ ("Failed to download " ++ filenameOf file_path ++ " - " ++ toString cur
      ++ "/" ++ toString tot)
      ∈ (saveImageToFile fsys image_url file_path cur tot o).2.log

/-- C6's conclusion: a non-200 response leaves the filesystem unchanged,
never opens the write handle, and fails with the status code in the error
message. -/
def RemoteFailureNoFile (fsys : List String) (image_url file_path : String)
    (cur : Int) (tot : Nat) (code : Nat) : Prop :=
  (saveImageToFile fsys image_url file_path cur tot (.non200 code)).1 = fsys
  ∧ file_path ∉ (saveImageToFile fsys image_url file_path cur tot
      (.non200 code)).1
  ∧ (saveImageToFile fsys image_url file_path cur tot
      (.non200 code)).2.opened = false
  ∧ (saveImageToFile fsys image_url file_path cur tot
      (.non200 code)).2.result
      = .failed ("Failed to download image: " ++ toString code)

/-- C8, known content length: the `k`-th status line reports
`min(round(bytesSoFar / contentLength * 100), 100)` where `bytesSoFar` is
the sum of the first `k + 1` chunk sizes. -/
def KnownLengthPercent (filename : String) (cur : Int) (tot t : Nat)
    (chunks : List Nat) (k : Nat) : Prop :=
  ((chunkLines filename cur tot (some t) 0 chunks).getD k default).percent
    = some (min (jsRound ((((chunks.take (k + 1)).sum : Nat) : ℚ)
        / (t : ℚ) * 100)) 100)

/-- C8, unknown content length: the `k`-th status line has no defined
percent, but still carries the filename and the `current/total`
counters. -/
def UnknownLengthLine (filename : String) (cur : Int) (tot : Nat)
    (chunks : List Nat) (k : Nat) : Prop :=
  ((chunkLines filename cur tot none 0 chunks).getD k default).percent = none
  ∧ ((chunkLines filename cur tot none 0 chunks).getD k default).current = cur
  ∧ ((chunkLines filename cur tot none 0 chunks).getD k default).total = tot
  ∧ ((chunkLines filename cur tot none 0 chunks).getD k default).filename
      = filename

/-- C10's conclusion for a fixed `start_page`: under `main`'s call pattern
(`pageId = start_page + k`, `offsetIndex = start_page * 24`) the item at
flat offset `i + index = j` of the `k`-th downloaded page gets global
index `(k - 1) * 24 + j + 1`; on a page with `m` items the indices
therefore lie in `[(k - 1) * 24 + 1, (k - 1) * 24 + m]`; on the first
downloaded page they lie in `[-23, 0]` and the very first one is `-23`,
not `1`; and consecutive items (within a page, and across a full 24-item
page boundary) get indices that increase exactly by `1`. -/
def MainIndexPattern (start : Int) : Prop :=
  (∀ (k i index : Nat),
    curImage (start + (k : Int)) i index (start * 24)
      = ((k : Int) - 1) * 24 + ((i : Int) + (index : Int)) + 1)
  ∧ (∀ (k m j : Nat), j < m →
      ((k : Int) - 1) * 24 + 1
          ≤ curImage (start + (k : Int)) j 0 (start * 24)
      ∧ curImage (start + (k : Int)) j 0 (start * 24)
          ≤ ((k : Int) - 1) * 24 + (m : Int))
  ∧ (∀ (m j : Nat), m ≤ 24 → j < m →
      -23 ≤ curImage start j 0 (start * 24)
      ∧ curImage start j 0 (start * 24) ≤ 0)
  ∧ curImage start 0 0 (start * 24) = -23
  ∧ (∀ (k j : Nat),
      curImage (start + (k : Int)) j 0 (start * 24) + 1
        = curImage (start + (k : Int)) (j + 1) 0 (start * 24))
  ∧ (∀ (k : Nat),
      curImage (start + (k : Int)) 23 0 (start * 24) + 1
        = curImage (start + (k : Int) + 1) 0 0 (start * 24))

/-! Helper lemmas. -/

lemma getD_mem {α : Type} (d : α) :
    ∀ (l : List α) (k : Nat), k < l.length → l.getD k d ∈ l := by
  intro l
  induction l with
  | nil => intro k hk; simp at hk
  | cons x xs ih =>
    intro k hk
    cases k with
    | zero => simp
    | succ k =>
      have hk' : k < xs.length := by simpa using hk
      simpa using Or.inr (ih k hk')

lemma getD_mem_take {α : Type} (d : α) :
    ∀ (l : List α) (n : Nat), n < l.length → l.getD n d ∈ l.take (n + 1) := by
  intro l
  induction l with
  | nil => intro n hn; simp at hn
  | cons x xs ih =>
    intro n hn
    cases n with
    | zero => simp
    | succ n =>
      have hn' : n < xs.length := by simpa using hn
      simpa using Or.inr (ih n hn')

lemma getD_mem_drop {α : Type} (d : α) :
    ∀ (l : List α) (n m : Nat), n ≤ m → m < l.length →
      l.getD m d ∈ l.drop n := by
  intro l
  induction l with
  | nil => intro n m _ hm; simp at hm
  | cons x xs ih =>
    intro n m hnm hm
    cases n with
    | zero => simpa using getD_mem d (x :: xs) m hm
    | succ n =>
      cases m with
      | zero => omega
      | succ m =>
        have hm' : m < xs.length := by simpa using hm
        simpa using ih n m (by omega) hm'

lemma batchSlices_nil {α : Type} (L i : Nat) :
    batchSlices L i ([] : List α) = [] := by
  cases L <;> simp [batchSlices]

lemma batches_nil {α : Type} (L : Nat) :
    batches L ([] : List α) = [] := by
  cases L <;> simp [batches]

lemma batches_eq_nil_iff {α : Type} (L : Nat) (xs : List α) :
    batches L xs = [] ↔ xs = [] := by
  cases xs <;> cases L <;> simp [batches]

lemma batchSlices_map_snd_aux {α : Type} :
    ∀ (n L i : Nat) (xs : List α), xs.length ≤ n →
      (batchSlices (L + 1) i xs).map Prod.snd = batches (L + 1) xs := by
  intro n
  induction n with
  | zero =>
    intro L i xs h
    have hx : xs = [] := List.eq_nil_of_length_eq_zero (Nat.le_zero.mp h)
    subst hx
    simp [batchSlices, batches]
  | succ n ih =>
    intro L i xs h
    cases xs with
    | nil => simp [batchSlices, batches]
    | cons x xs =>
      have hlen : (xs.drop L).length ≤ n := by
        simp only [List.length_drop]
        simp only [List.length_cons] at h
        omega
      simp [batchSlices, batches, ih L (i + (L + 1)) (xs.drop L) hlen]

lemma batches_flatten_aux {α : Type} :
    ∀ (n L : Nat) (xs : List α), xs.length ≤ n →
      (batches (L + 1) xs).flatten = xs := by
  intro n
  induction n with
  | zero =>
    intro L xs h
    have hx : xs = [] := List.eq_nil_of_length_eq_zero (Nat.le_zero.mp h)
    subst hx
    simp [batches]
  | succ n ih =>
    intro L xs h
    cases xs with
    | nil => simp [batches]
    | cons x xs =>
      have hlen : (xs.drop L).length ≤ n := by
        simp only [List.length_drop]
        simp only [List.length_cons] at h
        omega
      simp [batches, ih L (xs.drop L) hlen]

lemma batches_mem_aux {α : Type} :
    ∀ (n L : Nat) (xs : List α) (b : List α), xs.length ≤ n →
      b ∈ batches (L + 1) xs → b ≠ [] ∧ b.length ≤ L + 1 := by
  intro n
  induction n with
  | zero =>
    intro L xs b h hb
    have hx : xs = [] := List.eq_nil_of_length_eq_zero (Nat.le_zero.mp h)
    subst hx
    simp [batches] at hb
  | succ n ih =>
    intro L xs b h hb
    cases xs with
    | nil => simp [batches] at hb
    | cons x xs =>
      have hlen : (xs.drop L).length ≤ n := by
        simp only [List.length_drop]
        simp only [List.length_cons] at h
        omega
      simp only [batches, List.mem_cons] at hb
      rcases hb with hb | hb
      · subst hb
        refine ⟨by simp, ?_⟩
        have := List.length_take_le L xs
        simp only [List.length_cons]
        omega
      · exact ih L (xs.drop L) b hlen hb

lemma batches_getD_aux {α : Type} :
    ∀ (n L : Nat) (xs : List α) (k : Nat), xs.length ≤ n →
      k + 1 < (batches (L + 1) xs).length →
      ((batches (L + 1) xs).getD k []).length = L + 1 := by
  intro n
  induction n with
  | zero =>
    intro L xs k h hk
    have hx : xs = [] := List.eq_nil_of_length_eq_zero (Nat.le_zero.mp h)
    subst hx
    simp [batches] at hk
  | succ n ih =>
    intro L xs k h hk
    cases xs with
    | nil => simp [batches] at hk
    | cons x xs =>
      have hlen : (xs.drop L).length ≤ n := by
        simp only [List.length_drop]
        simp only [List.length_cons] at h
        omega
      cases k with
      | zero =>
        simp only [batches, List.length_cons] at hk
        have hne : batches (L + 1) (xs.drop L) ≠ [] := by
          intro hnil
          rw [hnil] at hk
          simp at hk
        have hdrop : xs.drop L ≠ [] := by
          intro hnil
          exact hne (by rw [hnil, batches_nil])
        have hxlen : L < xs.length := by
          by_contra hle
          exact hdrop (List.drop_eq_nil_of_le (by omega))
        simp only [batches, List.getD_cons_zero, List.length_cons,
          List.length_take]
        omega
      | succ k =>
        simp only [batches, List.length_cons] at hk
        simpa [batches] using ih L (xs.drop L) k hlen (by omega)

lemma schedTrace_append {α : Type} (as bs : List (List α)) :
    schedTrace (as ++ bs) = schedTrace as ++ schedTrace bs := by
  induction as with
  | nil => simp [schedTrace]
  | cons a as ih => simp [schedTrace, ih]

lemma settle_mem_schedTrace {α : Type} (t : α) (b : List α)
    (bs : List (List α)) (ht : t ∈ b) (hb : b ∈ bs) :
    Ev.settle t ∈ schedTrace bs := by
  induction bs with
  | nil => simp at hb
  | cons b' bs ih =>
    rcases List.mem_cons.mp hb with h | h
    · subst h
      simp only [schedTrace, List.mem_append, List.mem_map]
      exact Or.inl (Or.inr ⟨t, ht, rfl⟩)
    · simp only [schedTrace, List.mem_append]
      exact Or.inr (ih h)

lemma start_mem_schedTrace {α : Type} (t : α) (b : List α)
    (bs : List (List α)) (ht : t ∈ b) (hb : b ∈ bs) :
    Ev.start t ∈ schedTrace bs := by
  induction bs with
  | nil => simp at hb
  | cons b' bs ih =>
    rcases List.mem_cons.mp hb with h | h
    · subst h
      simp only [schedTrace, List.mem_append, List.mem_map]
      exact Or.inl (Or.inl ⟨t, ht, rfl⟩)
    · simp only [schedTrace, List.mem_append]
      exact Or.inr (ih h)

lemma save_mono (fsys : List String) (u p : String) (cur : Int) (tot : Nat)
    (o : Outcome) (q : String) (hq : q ∈ fsys) :
    q ∈ (saveImageToFile fsys u p cur tot o).1 := by
  by_cases hm : p ∈ fsys
  · simpa [saveImageToFile, hm] using hq
  · cases o <;> simp [saveImageToFile, hm, List.erase_cons_head, hq]

lemma runTasks_length (tot : Nat) :
    ∀ (l : List (Task × Outcome)) (fsys : List String),
      (runTasks tot fsys l).2.length = l.length := by
  intro l
  induction l with
  | nil => intro fsys; simp [runTasks]
  | cons t rest ih => intro fsys; simp [runTasks, ih]

lemma runBatches_length (tot : Nat) :
    ∀ (bs : List (List (Task × Outcome))) (fsys : List String),
      (runBatches tot fsys bs).2.length = bs.flatten.length := by
  intro bs
  induction bs with
  | nil => intro fsys; simp [runBatches]
  | cons b bs ih => intro fsys; simp [runBatches, runTasks_length, ih]

lemma runTasks_getD_requests (tot : Nat) :
    ∀ (l : List (Task × Outcome)) (fsys : List String) (i : Nat),
      i < l.length → (l.getD i default).1.file_path ∈ fsys →
      ((runTasks tot fsys l).2.getD i default).requests = 0 := by
  intro l
  induction l with
  | nil => intro fsys i hi; simp at hi
  | cons t rest ih =>
    intro fsys i hi hmem
    cases i with
    | zero =>
      simp only [List.getD_cons_zero] at hmem
      simp [runTasks, saveImageToFile, hmem]
    | succ i =>
      have hi' : i < rest.length := by simpa using hi
      simp only [List.getD_cons_succ] at hmem
      have hmem' : (rest.getD i default).1.file_path
          ∈ (saveImageToFile fsys t.1.image_url t.1.file_path t.1.cur tot
              t.2).1 :=
        save_mono fsys t.1.image_url t.1.file_path t.1.cur tot t.2 _ hmem
      simpa [runTasks] using
        ih (saveImageToFile fsys t.1.image_url t.1.file_path t.1.cur tot
          t.2).1 i hi' hmem'

lemma downloadPage_json_isOk (fsys : List String) (pageId : Int) (tot : Nat)
    (folder : String) (off : Int) (d : Option (List Item))
    (oracle : Nat → Outcome) :
    ∃ v, downloadPage fsys pageId tot folder off (.json d) oracle
      = .ok v :=
  ⟨_, rfl⟩

lemma runPagesGo_ok (total : Nat) (off : Int) (folder : String)
    (bodies : Int → Body) (oracle : Int → Nat → Outcome) :
    ∀ (n : Nat) (fsys : List String) (pageId : Int),
      (∀ k, k < n → (bodies (pageId + (k : Int))).isMalformed = false) →
      ∃ v, runPagesGo total off folder bodies oracle fsys pageId n
        = .ok v := by
  intro n
  induction n with
  | zero => intro fsys pageId _; exact ⟨_, rfl⟩
  | succ n ih =>
    intro fsys pageId h
    have h0 : (bodies pageId).isMalformed = false := by
      have := h 0 (Nat.succ_pos n)
      simpa using this
    cases hb : bodies pageId with
    | malformed raw => rw [hb] at h0; simp [Body.isMalformed] at h0
    | json d =>
      obtain ⟨v, hv⟩ :=
        downloadPage_json_isOk fsys pageId total folder off d
          (oracle pageId)
      obtain ⟨w, hw⟩ := ih v.1 (pageId + 1) (fun k hk => by
        have hkk := h (k + 1) (by omega)
        have e : pageId + (((k + 1 : Nat)) : Int) = pageId + 1 + (k : Int) := by
          push_cast
          ring
        rwa [e] at hkk)
      exact ⟨(w.1, v.2 ++ w.2), by simp [runPagesGo, hb, hv, hw]⟩

lemma runPagesGo_error (total : Nat) (off : Int) (folder : String)
    (bodies : Int → Body) (oracle : Int → Nat → Outcome) :
    ∀ (n : Nat) (fsys : List String) (pageId : Int),
      (∃ k, k < n ∧ (bodies (pageId + (k : Int))).isMalformed = true) →
      runPagesGo total off folder bodies oracle fsys pageId n
        = .error jsonParseError := by
  intro n
  induction n with
  | zero =>
    intro fsys pageId h
    obtain ⟨k, hk, _⟩ := h
    omega
  | succ n ih =>
    intro fsys pageId h
    obtain ⟨k, hk, hmal⟩ := h
    cases hb : bodies pageId with
    | malformed raw => simp [runPagesGo, hb, downloadPage]
    | json d =>
      have hk0 : k ≠ 0 := by
        intro h0
        subst h0
        rw [show pageId + ((0 : Nat) : Int) = pageId by simp] at hmal
        rw [hb] at hmal
        simp [Body.isMalformed] at hmal
      obtain ⟨k', rfl⟩ := Nat.exists_eq_succ_of_ne_zero hk0
      obtain ⟨v, hv⟩ :=
        downloadPage_json_isOk fsys pageId total folder off d
          (oracle pageId)
      have hrec : runPagesGo total off folder bodies oracle v.1 (pageId + 1) n
          = .error jsonParseError := by
        apply ih
        refine ⟨k', by omega, ?_⟩
        have e : pageId + 1 + (k' : Int) = pageId + ((k' + 1 : Nat) : Int) := by
          push_cast
          ring
        rw [e]
        exact hmal
      simp [runPagesGo, hb, hv, hrec]

lemma chunkLines_getD (filename : String) (cur : Int) (tot : Nat)
    (cl : Option Nat) :
    ∀ (chunks : List Nat) (k d0 : Nat), k < chunks.length →
      (chunkLines filename cur tot cl d0 chunks).getD k default
        = { filename := filename,
            percent := cl.map (progressOf (d0 + (chunks.take (k + 1)).sum)),
            current := cur, total := tot } := by
  intro chunks
  induction chunks with
  | nil => intro k d0 hk; simp at hk
  | cons c cs ih =>
    intro k d0 hk
    cases k with
    | zero => simp [chunkLines]
    | succ k =>
      have hk' : k < cs.length := by simpa using hk
      have hstep : chunkLines filename cur tot cl d0 (c :: cs)
          = { filename := filename,
              percent := cl.map (progressOf (d0 + c)),
              current := cur, total := tot }
            :: chunkLines filename cur tot cl (d0 + c) cs := rfl
      rw [hstep, List.getD_cons_succ, ih k (d0 + c) hk']
      have e : d0 + c + (cs.take (k + 1)).sum
          = d0 + ((c :: cs).take (k + 1 + 1)).sum := by
        simp only [List.take_succ_cons, List.sum_cons]
        omega
      rw [e]

/-! Claim theorems. -/

/-- C1: for every page number `p`, batch base `i`, in-batch position
`index` (so the zero-based item offset is `j = i + index`) and
caller-supplied `offsetIndex`, the global sequence index of the task is
`(p - 1) * 24 + j + 1 - offsetIndex`; in particular for page 2, item
offset 0, offsetIndex 0 it is 25. -/
theorem curImage_formula :
    (∀ (pageId : Int) (i index : Nat) (offsetIndex : Int),
      curImage pageId i index offsetIndex
        = (pageId - 1) * 24 + (((i : Int) + (index : Int)) + 1)
            - offsetIndex)
    ∧ curImage 2 0 0 0 = 25 := by
  refine ⟨fun p i idx off => ?_, by decide⟩
  unfold curImage
  ring

/-- C2: for every task list and concurrency limit `L > 0`, the scheduler
partitions the list into contiguous batches of size `L` (last possibly
smaller) covering the whole list in order, starts all tasks of a batch
together, and contributes no start event of batch `n + 1` before every
settle event of batch `n`. -/
theorem scheduler_partitions_batches (L : Nat) (tasks : List Task)
    (hL : 0 < L) : SchedulerPartition L tasks := by
  obtain ⟨L', rfl⟩ :=
    Nat.exists_eq_succ_of_ne_zero (Nat.pos_iff_ne_zero.mp hL)
  unfold SchedulerPartition
  refine ⟨batchSlices_map_snd_aux tasks.length L' 0 tasks le_rfl,
    batches_flatten_aux tasks.length L' tasks le_rfl,
    fun b hb => batches_mem_aux tasks.length L' tasks b le_rfl hb,
    fun k hk => batches_getD_aux tasks.length L' tasks k le_rfl hk, ?_⟩
  intro n hn
  refine ⟨?_, ?_, ?_⟩
  · conv_lhs =>
      rw [← List.take_append_drop (n + 1) (batches (L' + 1) tasks)]
    exact schedTrace_append _ _
  · intro t ht
    exact settle_mem_schedTrace t _ _ ht (getD_mem_take [] _ n hn)
  · intro m hm hmlen u hu
    exact start_mem_schedTrace u _ _ hu
      (getD_mem_drop [] _ (n + 1) m (by omega) hmlen)

/-- C2 witness: limit 2 on a three-task list. -/
theorem scheduler_partitions_batches_witness :
    SchedulerPartition 2
      [⟨"u1", "d/a.jpg", 1⟩, ⟨"u2", "d/b.jpg", 2⟩, ⟨"u3", "d/c.jpg", 3⟩] :=
  scheduler_partitions_batches 2
    [⟨"u1", "d/a.jpg", 1⟩, ⟨"u2", "d/b.jpg", 2⟩, ⟨"u3", "d/c.jpg", 3⟩]
    (by decide)

/-- C3: a task whose destination already exists issues no request, opens
no write handle, leaves the filesystem unchanged and is a no-op success;
hence on a second run of the same task list every task whose file is
present after the first run issues zero network requests. -/
theorem skip_if_exists_idempotent :
    (∀ (fsys : List String) (image_url file_path : String) (cur : Int)
       (tot : Nat) (o : Outcome), file_path ∈ fsys →
       SkipIsNoOp fsys image_url file_path cur tot o)
    ∧ (∀ (tot : Nat) (fs0 : List String) (l : List (Task × Outcome))
       (i : Nat), i < l.length →
       (l.getD i default).1.file_path ∈ (runTasks tot fs0 l).1 →
       SecondRunNoRequest tot fs0 l i) := by
  constructor
  · intro fsys u p cur tot o h
    unfold SkipIsNoOp
    simp [saveImageToFile, h]
  · intro tot fs0 l i hi hmem
    exact runTasks_getD_requests tot l _ i hi hmem

/-- C3 witness: the file downloaded by the first run is skipped with zero
requests by the second. -/
theorem skip_if_exists_idempotent_witness :
    SkipIsNoOp ["d/a.jpg"] "u" "d/a.jpg" 1 24 .ok
    ∧ SecondRunNoRequest 24 [] [(⟨"u", "d/a.jpg", 1⟩, .ok)] 0 :=
  ⟨skip_if_exists_idempotent.1 ["d/a.jpg"] "u" "d/a.jpg" 1 24 .ok
     (by decide),
   skip_if_exists_idempotent.2 24 [] [(⟨"u", "d/a.jpg", 1⟩, .ok)] 0
     (by decide) (by decide)⟩

/-- C4: a task that fails after its destination file was opened for
writing closes the handle and removes the file, so the destination path
does not exist once the task settles. -/
theorem cleanup_on_failure_after_open (fsys : List String)
    (image_url file_path : String) (cur : Int) (tot : Nat) (o : Outcome)
    (msg : String)
    (hopen :
      (saveImageToFile fsys image_url file_path cur tot o).2.opened = true)
    (hfail :
      (saveImageToFile fsys image_url file_path cur tot o).2.result
        = .failed msg) :
    CleanupAfterOpen fsys image_url file_path cur tot o := by
  unfold CleanupAfterOpen
  by_cases hmem : file_path ∈ fsys
  · simp [saveImageToFile, hmem] at hfail
  · cases o <;> simp_all [saveImageToFile, hmem, List.erase_cons_head]

/-- C4 witness: mid-stream timeout after the writer was created. -/
theorem cleanup_on_failure_after_open_witness :
    CleanupAfterOpen [] "u" "d/a.jpg" 1 24 .midTimeout :=
  cleanup_on_failure_after_open [] "u" "d/a.jpg" 1 24 .midTimeout
    "Download timeout" (by decide) (by decide)

/-- C5: every per-file error is converted into a failed per-task result
with the destination logged; a batch always yields one settled result per
task; a page with well-formed JSON always completes normally whatever the
per-file outcomes; and a run over well-formed pages always completes
normally. -/
theorem per_file_errors_isolated :
    (∀ (fsys : List String) (image_url file_path : String) (cur : Int)
       (tot : Nat) (o : Outcome), o ≠ .ok → file_path ∉ fsys →
       FailureConverted fsys image_url file_path cur tot o)
    ∧ (∀ (tot : Nat) (fsys : List String) (l : List (Task × Outcome)),
       (runTasks tot fsys l).2.length = l.length)
    ∧ (∀ (tot : Nat) (fsys : List String)
       (bs : List (List (Task × Outcome))),
       (runBatches tot fsys bs).2.length = bs.flatten.length)
    ∧ (∀ (fsys : List String) (pageId : Int) (tot : Nat) (folder : String)
       (off : Int) (d : Option (List Item)) (oracle : Nat → Outcome),
       ∃ v, downloadPage fsys pageId tot folder off (.json d) oracle
         = .ok v)
    ∧ (∀ (fsys : List String) (start : Int) (pages : Nat) (folder : String)
       (bodies : Int → Body) (oracle : Int → Nat → Outcome),
       (∀ k, k < pages → (bodies (start + (k : Int))).isMalformed = false) →
       ∃ v, runPages fsys start pages folder bodies oracle = .ok v) := by
  refine ⟨?_, fun tot fsys l => runTasks_length tot l fsys,
    fun tot fsys bs => runBatches_length tot bs fsys,
    downloadPage_json_isOk, ?_⟩
  · intro fsys u p cur tot o ho hmem
    unfold FailureConverted
    cases o with
    | ok => exact absurd rfl ho
    | non200 c => simp [saveImageToFile, hmem, failLogs]
    | midTimeout => simp [saveImageToFile, hmem, failLogs]
    | writeError m => simp [saveImageToFile, hmem, failLogs]
    | connError m => simp [saveImageToFile, hmem, failLogs]
    | connTimeout => simp [saveImageToFile, hmem, failLogs]
  · intro fsys start pages folder bodies oracle h
    exact runPagesGo_ok (24 * pages) (start * 24) folder bodies oracle
      pages fsys start h

/-- C5 witness: a 404 on a fresh path is logged and converted; empty
batch and page and a one-page run all settle normally. -/
theorem per_file_errors_isolated_witness :
    FailureConverted [] "u" "d/a.jpg" 1 24 (.non200 404)
    ∧ (runTasks 24 [] []).2.length = ([] : List (Task × Outcome)).length
    ∧ (runBatches 24 [] []).2.length
        = ([] : List (List (Task × Outcome))).flatten.length
    ∧ (∃ v, downloadPage [] 1 24 "d" 0 (.json none) (fun _ => .ok)
        = .ok v)
    ∧ (∃ v, runPages [] 0 1 "d" (fun _ => .json none) (fun _ _ => .ok)
        = .ok v) :=
  ⟨per_file_errors_isolated.1 [] "u" "d/a.jpg" 1 24 (.non200 404)
     (by decide) (by decide),
   per_file_errors_isolated.2.1 24 [] [],
   per_file_errors_isolated.2.2.1 24 [] [],
   per_file_errors_isolated.2.2.2.1 [] 1 24 "d" 0 none (fun _ => .ok),
   per_file_errors_isolated.2.2.2.2 [] 0 1 "d" (fun _ => .json none)
     (fun _ _ => .ok) (fun _ _ => rfl)⟩

/-- C6: a non-200 response fails the task with the status code in the
error message, never opens the write handle, and creates no file at the
destination. -/
theorem non200_no_file_created (fsys : List String)
    (image_url file_path : String) (cur : Int) (tot : Nat) (code : Nat)
    (h : file_path ∉ fsys) :
    RemoteFailureNoFile fsys image_url file_path cur tot code := by
  unfold RemoteFailureNoFile
  simp [saveImageToFile, h, errMessage]

/-- C6 witness: status 404 on a fresh path. -/
theorem non200_no_file_created_witness :
    RemoteFailureNoFile [] "u" "d/a.jpg" 1 24 404 :=
  non200_no_file_created [] "u" "d/a.jpg" 1 24 404 (by decide)

/-- C7: a page whose `data` field is absent or empty yields zero download
tasks and `downloadPage` completes normally with no downloads and the
filesystem unchanged. -/
theorem empty_data_no_tasks :
    ∀ (fsys : List String) (pageId : Int) (totalCount : Nat)
      (folderName : String) (offsetIndex : Int) (oracle : Nat → Outcome),
      downloadPage fsys pageId totalCount folderName offsetIndex
          (.json none) oracle = .ok (fsys, [])
      ∧ downloadPage fsys pageId totalCount folderName offsetIndex
          (.json (some [])) oracle = .ok (fsys, []) := by
  intro fsys p tot folder off oracle
  constructor <;> simp [downloadPage, batchSlices_nil, runBatches]

/-- C8: with a known content length `t`, the `k`-th reported percent is
`min(round(bytesSoFar / t * 100), 100)`; with an unknown content length
the percent is undefined while the line still carries the filename and
the `current/total` counters. -/
theorem progress_percent_formula (filename : String) (cur : Int)
    (tot t : Nat) (chunks : List Nat) (k : Nat) (ht : 0 < t)
    (hk : k < chunks.length) :
    KnownLengthPercent filename cur tot t chunks k
    ∧ UnknownLengthLine filename cur tot chunks k := by
  constructor
  · unfold KnownLengthPercent
    rw [chunkLines_getD filename cur tot (some t) chunks k 0 hk]
    simp [progressOf]
  · unfold UnknownLengthLine
    rw [chunkLines_getD filename cur tot none chunks k 0 hk]
    simp

/-- C8 witness: two chunks of a 200-byte download, first report. -/
theorem progress_percent_formula_witness :
    KnownLengthPercent "a.jpg" 1 24 200 [50, 100] 0
    ∧ UnknownLengthLine "a.jpg" 1 24 [50, 100] 0 :=
  progress_percent_formula "a.jpg" 1 24 200 [50, 100] 0 (by decide)
    (by decide)

/-- C9: a malformed page body makes `downloadPage` fail with the parse
error, and a run whose page range contains a malformed page terminates
with that error (no per-page recovery or retry). -/
theorem malformed_json_fatal :
    (∀ (fsys : List String) (pageId : Int) (tot : Nat) (folder : String)
       (off : Int) (raw : String) (oracle : Nat → Outcome),
       downloadPage fsys pageId tot folder off (.malformed raw) oracle
         = .error jsonParseError)
    ∧ (∀ (fsys : List String) (start : Int) (pages : Nat) (folder : String)
       (bodies : Int → Body) (oracle : Int → Nat → Outcome),
       (∃ k, k < pages ∧ (bodies (start + (k : Int))).isMalformed = true) →
       runPages fsys start pages folder bodies oracle
         = .error jsonParseError) := by
  constructor
  · intro fsys p tot folder off raw oracle
    rfl
  · intro fsys start pages folder bodies oracle h
    exact runPagesGo_error (24 * pages) (start * 24) folder bodies oracle
      pages fsys start h

/-- C9 witness: a one-page run whose only page is malformed. -/
theorem malformed_json_fatal_witness :
    runPages [] 0 1 "d" (fun _ => .malformed "nope") (fun _ _ => .ok)
      = .error jsonParseError :=
  malformed_json_fatal.2 [] 0 1 "d" (fun _ => .malformed "nope")
    (fun _ _ => .ok) ⟨0, Nat.zero_lt_one, rfl⟩

/-- C10: under `main`'s call pattern (`offsetIndex = start_page * 24`,
pages iterated from `start_page`), the `k`-th downloaded page's item at
offset `j` gets global index `(k - 1) * 24 + j + 1`; the first page's
indices lie in `[-23, 0]` (never the 1-based counter), and consecutive
items' indices increase by exactly 1 within a page and across full
pages. -/
theorem main_call_pattern_indices (start : Int) (h : 0 ≤ start) :
    MainIndexPattern start := by
  unfold MainIndexPattern curImage
  refine ⟨?_, ?_, ?_, ?_, ?_, ?_⟩
  · intro k i idx
    ring
  · intro k m j hj
    constructor <;> (push_cast; omega)
  · intro m j hm hj
    constructor <;> (push_cast; omega)
  · ring
  · intro k j
    push_cast
    ring
  · intro k
    push_cast
    ring

/-- C10 witness: a run starting at page 0. -/
theorem main_call_pattern_indices_witness : MainIndexPattern 0 :=
  main_call_pattern_indices 0 (by decide)

end WallhavenDl
